import Mathlib

/-!
Shallow embedding of the mycelia-sdk client (jquant/mycelia-sdk) in Lean 4,
for checking the repository specification against the code.

Embedded source files:
* `src/src/mycelia_core.py`     — the `jAI` core HTTP client.
* `src/jai/task/trainer.py`     — the `Trainer` task class (fit/append/wait_setup).
* `src/jai/setup/trainer.py`    — the older `Trainer` variant (setup/append/wait_setup).

Modelling conventions: HTTP traffic is represented by explicit effect traces;
each remote fetch of `/status` consumes one element of a poll-event list;
Python exceptions are values of `PyExn`; Python `int` is Lean `Int`;
Python strings are Lean `String`, with the string primitives re-implemented
structurally over `.data` so that concrete inputs evaluate in the kernel.
-/

deriving instance DecidableEq for Except

namespace Mycelia

/-- Exceptions raised by the embedded Python code. -/
inductive PyExn
  | valueError
  | indexError
  | keyError (msg : String)
  deriving DecidableEq, Repr

/-- Python string slicing `s[:n]`. -/
def strTake (s : String) (n : Nat) : String :=
  ⟨s.data.take n⟩

/-- Python `s.lower()` (ASCII view, which is all the code produces). -/
def strLower (s : String) : String :=
  ⟨s.data.map Char.toLower⟩

/-- If `sep` is a prefix of `l`, return the remainder of `l` after it. -/
def dropPre : List Char → List Char → Option (List Char)
  | [], l => some l
  | _ :: _, [] => none
  | c :: sep, d :: l => if c = d then dropPre sep l else none

/-- Fuel-driven split of a character list on a separator, scanning left to
right over non-overlapping occurrences (the semantics of Python `str.split(sep)`
for a nonempty `sep`).  The fuel is an implementation device for structural
recursion; `pySplitOn` supplies enough of it that it is never exhausted. -/
def splitChF (sep : List Char) : Nat → List Char → List (List Char)
  | _, [] => [[]]
  | 0, l => [l]
  | fuel + 1, c :: l =>
    match dropPre sep (c :: l) with
    | some rest => [] :: splitChF sep fuel rest
    | none =>
      match splitChF sep fuel l with
      | [] => [[c]]
      | p :: ps => (c :: p) :: ps

/-- Python `s.split(sep)` for nonempty `sep`. -/
def pySplitOn (s sep : String) : List String :=
  (splitChF sep.data (s.data.length + 1) s.data).map (fun l => ⟨l⟩)

/-- Characters stripped by Python `str.strip()`. -/
def isPySpace (c : Char) : Bool :=
  c == ' ' || c == '\t' || c == '\n' || c == '\r'

/-- Python `s.strip()`. -/
def pyStrip (s : String) : String :=
  ⟨((s.data.dropWhile isPySpace).reverse.dropWhile isPySpace).reverse⟩

/-- Numeric value of a digit list, most significant first. -/
def digitsToNat (l : List Char) : Nat :=
  l.foldl (fun acc c => 10 * acc + (c.toNat - 48)) 0

/-- Python `int(s)`: optional surrounding whitespace, optional sign, digits.
`none` models an uncaught `ValueError`. -/
def pyInt (s : String) : Option Int :=
  match (pyStrip s).data with
  | '-' :: rest =>
    if rest.isEmpty then none
    else if rest.all Char.isDigit then some (-(digitsToNat rest : Int)) else none
  | '+' :: rest =>
    if rest.isEmpty then none
    else if rest.all Char.isDigit then some ((digitsToNat rest : Int)) else none
  | t =>
    if t.isEmpty then none
    else if t.all Char.isDigit then some ((digitsToNat t : Int)) else none

/-- Python `fnmatch(desc, "*Iteration:*")` on POSIX: substring containment of
`"Iteration:"`.  For a nonempty separator, the split returns one more piece
than there are occurrences of the separator. -/
def hasIterationTag (desc : String) : Bool :=
  2 ≤ (pySplitOn desc "Iteration:").length

/-- Embeds `get_numbers` of `src/jai/task/trainer.py` (module level):
```
if fnmatch(status["Description"], "*Iteration:*"):
    curr_step, max_iterations = (
        status["Description"].split("Iteration: ")[1].strip().split(" / "))
    return True, int(curr_step), int(max_iterations)
return False, 0, 0
```
`[1]` is Python list indexing (it may raise `IndexError`); the 2-way unpacking
of `split(" / ")` and the `int` conversions may raise `ValueError`. -/
def get_numbers (desc : String) : Except PyExn (Bool × Int × Int) :=
  if hasIterationTag desc then
    match (pySplitOn desc "Iteration: ").get? 1 with
    | none => .error .indexError
    | some part =>
      match pySplitOn (pyStrip part) " / " with
      | [a, b] =>
        match pyInt a, pyInt b with
        | some i, some n => .ok (true, i, n)
        | _, _ => .error .valueError
      | _ => .error .valueError
  else .ok (false, 0, 0)

/-- A Python value appearing in the tuples returned by the `setup` variant of
`get_numbers` (either an `int` or a `bool`). -/
inductive PyVal
  | int (i : Int)
  | bool (b : Bool)
  deriving DecidableEq, Repr

/-- Embeds the nested `get_numbers` of `src/jai/setup/trainer.py`
(`Trainer.wait_setup`, lines 376-381).  The match branch returns the PAIR
`int(curr_step), int(max_iterations)` while the other branch returns the
triple `False, 0, 0`; the tuple is modelled as a list of Python values so the
differing arities stay visible. -/
def setup_get_numbers (desc : String) : Except PyExn (List PyVal) :=
  if hasIterationTag desc then
    match (pySplitOn desc "Iteration: ").get? 1 with
    | none => .error .indexError
    | some part =>
      match pySplitOn (pyStrip part) " / " with
      | [a, b] =>
        match pyInt a, pyInt b with
        | some i, some n => .ok [PyVal.int i, PyVal.int n]
        | _, _ => .error .valueError
      | _ => .error .valueError
  else .ok [PyVal.bool false, PyVal.int 0, PyVal.int 0]

/-- One record of the remote `/status` response, as consumed by `wait_setup`
(§3 of the source docstrings: `Status`, `Description`, `CurrentStep`,
`TotalSteps`). -/
structure StatusRecord where
  status : String
  description : String
  currentStep : Int
  totalSteps : Int
  deriving DecidableEq, Repr

/-- One outcome of a `self.status()` poll: either a fetched record, or a
`KeyboardInterrupt` delivered at that blocking call. -/
inductive PollEvent
  | record (s : StatusRecord)
  | interrupt
  deriving DecidableEq, Repr

/-- Observable side effects of the polling loop: progress-bar updates and the
remote calls `_cancel_setup` / `_delete_status` (their HTTP bodies live in the
part of the package not shipped here; `wait_setup` only sequences them). -/
inductive Eff
  | fetchStatus
  | outerUpd (d : Int)
  | innerUpd (d : Int)
  | innerFill (d : Int)
  | cancelSetup (name : String)
  | deleteStatus (name : String)
  deriving DecidableEq, Repr

/-- How a `wait_setup` call ends. -/
inductive WaitResult
  | finished (final : StatusRecord)
  | failed (desc : String)
  | interrupted
  | kbUncaught
  | parseError (e : PyExn)
  | exhausted
  deriving DecidableEq, Repr

/-- Which fetch the loop of `Trainer.wait_setup` is blocked on: the outer
`while status["Status"] != end_message` loop, or the inner
`while iteration` loop (with the pending `iteration` flag, the inner bar
count `ibar.n` and the captured `max_iterations`). -/
inductive WSMode
  | outerPoll
  | innerPoll (itFlag : Bool) (ibarN : Int) (maxIter : Int)
  deriving DecidableEq, Repr

/-- The local variables of `Trainer.wait_setup` that survive across fetches:
`current`, `max_steps`, `step`, `is_init`, `sleep_time`. -/
structure OuterVars where
  current : Int
  maxSteps : Int
  step : Int
  isInit : Bool
  sleepTime : Int
  deriving DecidableEq, Repr

/-- The body of the inner iteration loop acting on the bar:
`step_update = curr_step - iteration_bar.n`; a positive update is applied and
the sleep time reset, otherwise the sleep time grows.  Returns the trace, the
new bar count and the new sleep time. -/
def innerBodyStep (freq sleepTime ibarN curr : Int) : List Eff × Int × Int :=
  let d := curr - ibarN
  if 0 < d then ([Eff.innerUpd d], ibarN + d, freq)
  else ([], ibarN, sleepTime + freq)

/-- The tail of the outer loop body: the outer `pbar` update
(`pbar.update(current)` on the very first pass, else
`pbar.update(step - current); current = step`), then `step` is reloaded from
the status fetched last and `is_init` is cleared before the next fetch. -/
def outerTailStep (v : OuterVars) (s : StatusRecord) : List Eff × OuterVars :=
  if v.step = v.current ∧ v.isInit = true then
    ([Eff.outerUpd v.current],
      { v with step := s.currentStep, isInit := false })
  else
    ([Eff.outerUpd (v.step - v.current)],
      { v with current := v.step, step := s.currentStep, isInit := false })

/-- The final `pbar` fill after the outer loop exits on the success message. -/
def finalFill (v : OuterVars) : List Eff :=
  if v.current ≠ v.maxSteps ∧ v.isInit = false then [Eff.outerUpd (v.maxSteps - v.current)]
  else if v.current ≠ v.maxSteps ∧ v.isInit = true then [Eff.outerUpd v.maxSteps]
  else []

/-- The terminal status strings matched exactly by `Trainer.wait_setup`. -/
def end_message : String := "Task ended successfully."

/-- The failure sentinel matched exactly by `Trainer.wait_setup`. -/
def error_message : String := "Something went wrong."

/-- Processing of one fetched status record by `Trainer.wait_setup`
(`src/jai/task/trainer.py`, lines 487-555), between two consecutive
`self.status()` calls.  Yields the effects emitted and either the state
awaiting the next fetch or the way the call ends.

In `.outerPoll` the record is examined by the outer `while` condition: on
`end_message` the bar is filled, `_delete_status` issued and the record
returned; on `error_message` a `BaseException(Description)` is raised;
otherwise `get_numbers` decides whether the inner iteration loop starts (its
first body pass re-parses the same record and updates the fresh inner bar from
`n = 0`) or the outer tail runs.  In `.innerPoll` the pending `iteration` flag
decides whether the inner body runs again on the new record or the inner bar
is filled to `max_iterations` and the outer tail runs. -/
def wsStep (name : String) (freq : Int) (mode : WSMode) (v : OuterVars)
    (s : StatusRecord) : List Eff × (WSMode × OuterVars ⊕ WaitResult) :=
  match mode with
  | .outerPoll =>
    if s.status = end_message then
      (finalFill v ++ [Eff.deleteStatus name], Sum.inr (WaitResult.finished s))
    else if s.status = error_message then
      ([], Sum.inr (WaitResult.failed s.description))
    else
      match get_numbers s.description with
      | .error e => ([], Sum.inr (WaitResult.parseError e))
      | .ok (iteration, curr, maxIterations) =>
        if iteration then
          let (tr, n', sleep') := innerBodyStep freq v.sleepTime 0 curr
          (tr, Sum.inl (WSMode.innerPoll iteration n' maxIterations, { v with sleepTime := sleep' }))
        else
          let (tr, v') := outerTailStep v s
          (tr, Sum.inl (WSMode.outerPoll, v'))
  | .innerPoll itFlag ibarN maxIter =>
    if itFlag then
      match get_numbers s.description with
      | .error e => ([], Sum.inr (WaitResult.parseError e))
      | .ok (it', curr, _) =>
        let (tr, n', sleep') := innerBodyStep freq v.sleepTime ibarN curr
        (tr, Sum.inl (WSMode.innerPoll it' n' maxIter, { v with sleepTime := sleep' }))
    else
      let (tr, v') := outerTailStep v s
      (Eff.innerFill (maxIter - ibarN) :: tr, Sum.inl (WSMode.outerPoll, v'))

/-- The polling loop of `Trainer.wait_setup` inside the `try` block: consume
poll events one by one.  A `KeyboardInterrupt` here is caught by the handler,
which issues one `_cancel_setup(name)` call and re-raises
`KeyboardInterrupt(response)` (`WaitResult.interrupted`).  An exhausted event
list is a model artifact (`WaitResult.exhausted`). -/
def wsRun (name : String) (freq : Int) (mode : WSMode) (v : OuterVars) :
    List PollEvent → WaitResult × List Eff
  | [] => (WaitResult.exhausted, [])
  | PollEvent.interrupt :: _ => (WaitResult.interrupted, [Eff.cancelSetup name])
  | PollEvent.record s :: rest =>
    match wsStep name freq mode v s with
    | (tr, Sum.inr res) => (res, tr)
    | (tr, Sum.inl (mode', v')) =>
      let (res, tr') := wsRun name freq mode' v' rest
      (res, tr ++ tr')

/-- Embeds `Trainer.wait_setup` of `src/jai/task/trainer.py`.  The first poll
event is the initial `status = self.status()` fetch, which happens before the
`try` block: an interrupt there propagates uncaught (`kbUncaught`) and issues
no cancel.  Local variables are initialised from the first record
(`current, max_steps = status["CurrentStep"], status["TotalSteps"]`;
`step = current`; `is_init = True`; `sleep_time = frequency_seconds`), and that
same record is the first one the outer `while` examines. -/
def wait_setup (name : String) (freq : Int) (polls : List PollEvent) :
    WaitResult × List Eff :=
  match polls with
  | [] => (WaitResult.exhausted, [])
  | PollEvent.interrupt :: _ => (WaitResult.kbUncaught, [])
  | PollEvent.record s0 :: rest =>
    let v0 : OuterVars :=
      { current := s0.currentStep, maxSteps := s0.totalSteps,
        step := s0.currentStep, isInit := true, sleepTime := freq }
    match wsStep name freq WSMode.outerPoll v0 s0 with
    | (tr, Sum.inr res) => (res, tr)
    | (tr, Sum.inl (mode', v')) =>
      let (res, tr') := wsRun name freq mode' v' rest
      (res, tr ++ tr')

/-- An HTTP response as seen by the `jAI` core client: its status code and its
(already JSON-decoded) body, kept opaque as a string. -/
structure HttpResponse where
  statusCode : Nat
  body : String
  deriving DecidableEq, Repr

/-- What a core-client operation hands back to the caller: the parsed JSON
body on the endpoint success code, or the raw response object otherwise.
No constructor models a raised exception because `jAI.assert_status_code`
raises none (its `raise ValueError` line is commented out). -/
inductive CoreReturn
  | parsed (body : String)
  | raw (resp : HttpResponse)
  deriving DecidableEq, Repr

/-- Embeds `jAI.assert_status_code` of `src/src/mycelia_core.py` (lines
91-96): print the response body, return the raw response.  The first
component of each operation result collects the printed lines. -/
def assert_status_code (r : HttpResponse) : List String × CoreReturn :=
  ([r.body], CoreReturn.raw r)

/-- Embeds `jAI._insert_json` (POST `/data/{name}`, success 200). -/
def insert_json (r : HttpResponse) : List String × CoreReturn :=
  if r.statusCode = 200 then ([], CoreReturn.parsed r.body) else assert_status_code r

/-- Embeds `jAI._setup_database` (POST `/setup/{name}`, success 201). -/
def setup_database (r : HttpResponse) : List String × CoreReturn :=
  if r.statusCode = 201 then ([], CoreReturn.parsed r.body) else assert_status_code r

/-- Embeds `jAI._append` (PATCH `/data/{name}`, success 202). -/
def append_patch (r : HttpResponse) : List String × CoreReturn :=
  if r.statusCode = 202 then ([], CoreReturn.parsed r.body) else assert_status_code r

/-- Embeds `jAI.delete_raw_data` (DELETE `/data/{name}`, success 200). -/
def delete_raw_data (r : HttpResponse) : List String × CoreReturn :=
  if r.statusCode = 200 then ([], CoreReturn.parsed r.body) else assert_status_code r

/-- Embeds `jAI.delete_database` (DELETE `/database/{name}`, success 200). -/
def delete_database (r : HttpResponse) : List String × CoreReturn :=
  if r.statusCode = 200 then ([], CoreReturn.parsed r.body) else assert_status_code r

/-- Embeds the `jAI.names` property (GET `/info?mode=names`, success 200). -/
def names_get (r : HttpResponse) : List String × CoreReturn :=
  if r.statusCode = 200 then ([], CoreReturn.parsed r.body) else assert_status_code r

/-- Embeds the `jAI.status` property (GET `/status`, success 200). -/
def status_get (r : HttpResponse) : List String × CoreReturn :=
  if r.statusCode = 200 then ([], CoreReturn.parsed r.body) else assert_status_code r

/-- Embeds `jAI._similar_json` (PUT `/similar/data/{name}`, success 200). -/
def similar_json (r : HttpResponse) : List String × CoreReturn :=
  if r.statusCode = 200 then ([], CoreReturn.parsed r.body) else assert_status_code r

/-- Embeds `jAI.ids` (GET `/id/{name}`, success 200). -/
def ids_get (r : HttpResponse) : List String × CoreReturn :=
  if r.statusCode = 200 then ([], CoreReturn.parsed r.body) else assert_status_code r

/-- Embeds `jAI.is_valid` (GET `/validation/{name}`, success 200). -/
def is_valid_get (r : HttpResponse) : List String × CoreReturn :=
  if r.statusCode = 200 then ([], CoreReturn.parsed r.body) else assert_status_code r

/-- How `jAI.wait_setup` of `src/src/mycelia_core.py` ends: it falls off the
end of the function (returning `None`), raises on the failure sentinel, or the
modelled poll list runs out. -/
inductive CoreResult
  | returnedNone
  | raisedFailure (desc : String)
  | exhausted
  deriving DecidableEq, Repr

/-- One `self.status` poll of the core client: `none` models an empty status
dictionary (`len(status) == 0`), `some s` the record `status[name]`. -/
abbrev CorePoll := Option StatusRecord

/-- The `while` check of `jAI.wait_setup` on the current record: `some` when
the loop ends here (returning `None` on the exact success string, raising
`BaseException(Description)` on the exact failure string), `none` when it
polls again. -/
def coreCheck (s : StatusRecord) : Option CoreResult :=
  if s.status = end_message then some CoreResult.returnedNone
  else if s.status = error_message then some (CoreResult.raisedFailure s.description)
  else none

/-- The `while` loop of `jAI.wait_setup`: check the current record, otherwise
fetch again; an empty status dictionary breaks out of the loop (returning
`None`).  Every fetch is traced. -/
def coreLoop : List CorePoll → StatusRecord → CoreResult × List Eff
  | [], s =>
    match coreCheck s with
    | some r => (r, [])
    | none => (CoreResult.exhausted, [])
  | none :: _, s =>
    match coreCheck s with
    | some r => (r, [])
    | none => (CoreResult.returnedNone, [Eff.fetchStatus])
  | some s' :: rest, s =>
    match coreCheck s with
    | some r => (r, [])
    | none =>
      let (res, tr) := coreLoop rest s'
      (res, Eff.fetchStatus :: tr)

/-- Embeds `jAI.wait_setup` of `src/src/mycelia_core.py` (lines 284-297).  It
polls until the success string, raises on the failure string, and returns
`None` in every non-raising case; it never issues any deletion (the trace
contains fetches only). -/
def core_wait_setup (polls : List CorePoll) : CoreResult × List Eff :=
  match polls with
  | [] => (CoreResult.exhausted, [])
  | none :: _ => (CoreResult.returnedNone, [Eff.fetchStatus])
  | some s :: rest =>
    let (res, tr) := coreLoop rest s
    (res, Eff.fetchStatus :: tr)

/-- An HTTP call issued by the trainer lifecycle methods, with the data batch
identified by its starting row. -/
inductive HttpCall
  | postBatch (name : String) (start : Nat)
  | patchData (name : String)
  | deleteData (name : String)
  | deleteDb (name : String)
  deriving DecidableEq, Repr

/-- The method and endpoint template behind each call (§6 of the spec). -/
def callRoute : HttpCall → String × String
  | .postBatch name _ => ("POST", "/data/" ++ name)
  | .patchData name => ("PATCH", "/data/" ++ name)
  | .deleteData name => ("DELETE", "/data/" ++ name)
  | .deleteDb name => ("DELETE", "/database/" ++ name)

/-- Starting rows of the batches of `range(0, nRows, batchSize)`. -/
def batchStarts (nRows batchSize : Nat) : List Nat :=
  (List.range ((nRows + batchSize - 1) / batchSize)).map (fun i => i * batchSize)

/-- Modelled from the spec: `BaseJai._insert_data` (the `jai/core` package is
not shipped here) uploads the data in fixed-size sequential batches, one POST
to `/data/{name}` per chunk (§4.3: "encodes and uploads data in fixed-size
batches sequentially"; endpoint table: insert batch = POST `/data/{name}`). -/
def insert_data (name : String) (nRows batchSize : Nat) : List HttpCall :=
  (batchStarts nRows batchSize).map (fun st => HttpCall.postBatch name st)

/-- Embeds the guard of `Trainer.fit` in `src/jai/task/trainer.py` (lines
244-250): when `is_valid()` reports the name bound in the remote environment,
`overwrite=True` first deletes the database and `overwrite=False` raises
`KeyError`; otherwise it proceeds with no remote call. -/
def fit_guard (isValid : Bool) (name : String) (overwrite : Bool) :
    Except PyExn (List HttpCall) :=
  if isValid then
    if overwrite then Except.ok [HttpCall.deleteDb name]
    else Except.error (PyExn.keyError
      ("Database " ++ name ++ " already exists in your environment. Set overwrite=True to overwrite it."))
  else Except.ok []

/-- Embeds the `db_type` property of `src/jai/setup/trainer.py` (lines
91-100): look the bound name up in the remote `/info` listing of
`(db_name, db_type)` rows; on a hit cache and return its type, on a miss
return the previously cached `self._type` (which is `None` for a fresh
trainer). -/
def db_type (info : List (String × String)) (name : String)
    (prevType : Option String) : Option String :=
  match info.find? (fun p => p.1 = name) with
  | some p => some p.2
  | none => prevType

/-- Embeds `Trainer.exists` of `src/jai/setup/trainer.py` (lines 166-167):
`return self.db_type is None`. -/
def setup_exists (info : List (String × String)) (name : String)
    (prevType : Option String) : Bool :=
  (db_type info name prevType).isNone

/-- Embeds the guard of `Trainer.setup` in `src/jai/setup/trainer.py` (lines
175-181): branch on `self.exists()`; when it is true, `overwrite=True` deletes
the database and `overwrite=False` raises `KeyError` (with a message claiming
the database already exists); otherwise proceed with no remote call. -/
def setup_guard (info : List (String × String)) (name : String)
    (prevType : Option String) (overwrite : Bool) :
    Except PyExn (List HttpCall) :=
  if setup_exists info name prevType then
    if overwrite then Except.ok [HttpCall.deleteDb name]
    else Except.error (PyExn.keyError
      ("Database " ++ name ++ " already exists in your environment. Set overwrite=True to overwrite it."))
  else Except.ok []

/-- Embeds `Trainer.append` of `src/jai/task/trainer.py` (lines 356-388) as
the sequence of remote data calls it issues: raise `KeyError` when
`is_valid()` is false; otherwise `delete_raw_data()` and `_delete_raw_data`
(both DELETE `/data/{name}`), then the batch uploads of `_insert_data`, then
one `_append` call (PATCH `/data/{name}`).  The batch uploads are modelled
from the spec (see `insert_data`). -/
def append_calls (isValid : Bool) (name : String) (nRows batchSize : Nat) :
    Except PyExn (List HttpCall) :=
  if isValid then
    Except.ok (HttpCall.deleteData name :: HttpCall.deleteData name ::
      (insert_data name nRows batchSize ++ [HttpCall.patchData name]))
  else
    Except.error (PyExn.keyError
      ("Database " ++ name ++ " does not exist in your environment. Run a setup to set your database up first."))

/-- Occurrences of one call in a trace. -/
def countCall (c : HttpCall) : List HttpCall → Nat
  | [] => 0
  | d :: l => (if d = c then 1 else 0) + countCall c l

/-- Occurrences of one effect in a `wait_setup` trace. -/
def countEff (e : Eff) : List Eff → Nat
  | [] => 0
  | d :: l => (if d = e then 1 else 0) + countEff e l

/-- Candidate name number `i` of `jAI.generate_name`:
`prefix + secrets.token_hex(k)[:k].lower() + suffix`, with the raw `token_hex`
outputs supplied by the oracle `draws`. -/
def candName (draws : Nat → String) (k : Nat) (pre suf : String) (i : Nat) : String :=
  pre ++ strLower (strTake (draws i) k) ++ suf

/-- The `while name in names` loop of `jAI.generate_name`: walk the candidate
stream until a name outside `names` appears.  The fuel bounds how many loop
iterations the model unrolls; `none` means the loop had not produced a name
within that many draws. -/
def genLoop (draws : Nat → String) (k : Nat) (pre suf : String)
    (names : List String) : Nat → Nat → Option String
  | 0, _ => none
  | fuel + 1, i =>
    let name := candName draws k pre suf i
    if name ∈ names then genLoop draws k pre suf names fuel (i + 1)
    else some name

/-- Embeds `jAI.generate_name` of `src/src/mycelia_core.py` (lines 72-89):
raise `ValueError` when `length <= len(prefix) + len(suffix)`; otherwise draw
`token_hex` codes of the residual length until the assembled name avoids the
existing `names`, and return it.  `draws` is the stream of raw `token_hex`
outputs and `fuel` the number of loop iterations the model unrolls. -/
def generate_name (fuel : Nat) (draws : Nat → String) (length : Int)
    (pre suf : String) (names : List String) : Except PyExn (Option String) :=
  if length ≤ (pre.length : Int) + (suf.length : Int) then Except.error PyExn.valueError
  else Except.ok (genLoop draws (length - pre.length - suf.length).toNat pre suf names fuel 0)

/-- Divergence of `generate_name` at a given input: however many iterations of
its `while name in names` loop the model unrolls, no name is produced. -/
def generateNameNeverReturns (draws : Nat → String) (length : Int)
    (pre suf : String) (names : List String) : Prop :=
  ∀ fuel : Nat, generate_name fuel draws length pre suf names = Except.ok none

/-- A `token_hex` stream that always draws the byte `0x00` (one possible
behaviour of `secrets.token_hex(1)`). -/
def zeroDraws : Nat → String := fun _ => "00"

/-- The sixteen single lowercase hex digits: every possible value of
`token_hex(1)[:1].lower()`. -/
def hexDigits : List String :=
  ["0", "1", "2", "3", "4", "5", "6", "7", "8", "9", "a", "b", "c", "d", "e", "f"]

/-! Helper lemmas about traces of the polling loop. -/

theorem countEff_append (e : Eff) (l l' : List Eff) :
    countEff e (l ++ l') = countEff e l + countEff e l' := by
  induction l with
  | nil => simp [countEff]
  | cons d l ih => simp [countEff, ih]; ring

theorem countEff_eq_zero_of_not_mem {e : Eff} {l : List Eff} (h : e ∉ l) :
    countEff e l = 0 := by
  induction l with
  | nil => rfl
  | cons d l ih =>
    simp only [List.mem_cons, not_or] at h
    simp [countEff, Ne.symm h.1, ih h.2]

theorem mem_finalFill {v : OuterVars} {e : Eff} (h : e ∈ finalFill v) :
    ∃ d, e = Eff.outerUpd d := by
  unfold finalFill at h
  split at h
  · exact ⟨_, by simpa using h⟩
  · split at h
    · exact ⟨_, by simpa using h⟩
    · simp at h

theorem mem_innerBodyStep {freq st n c : Int} {e : Eff}
    (h : e ∈ (innerBodyStep freq st n c).1) : ∃ d, e = Eff.innerUpd d ∧ 0 < d := by
  simp only [innerBodyStep] at h
  split at h
  · exact ⟨c - n, by simpa using h, by assumption⟩
  · simp at h

theorem mem_outerTailStep {v : OuterVars} {s : StatusRecord} {e : Eff}
    (h : e ∈ (outerTailStep v s).1) : ∃ d, e = Eff.outerUpd d := by
  unfold outerTailStep at h
  split at h
  · exact ⟨_, by simpa using h⟩
  · exact ⟨_, by simpa using h⟩

theorem mem_wsStep {name : String} {freq : Int} {mode : WSMode} {v : OuterVars}
    {s : StatusRecord} {e : Eff} (h : e ∈ (wsStep name freq mode v s).1) :
    (∃ d, e = Eff.outerUpd d) ∨ (∃ d, e = Eff.innerUpd d ∧ 0 < d) ∨
    (∃ d, e = Eff.innerFill d) ∨ e = Eff.deleteStatus name := by
  cases mode with
  | outerPoll =>
    simp only [wsStep] at h
    split at h
    · dsimp only at h
      rcases List.mem_append.mp h with h' | h'
      · exact Or.inl (mem_finalFill h')
      · exact Or.inr (Or.inr (Or.inr (by simpa using h')))
    · split at h
      · simp at h
      · split at h
        · simp at h
        · split at h
          · dsimp only at h
            exact Or.inr (Or.inl (mem_innerBodyStep h))
          · dsimp only at h
            exact Or.inl (mem_outerTailStep h)
  | innerPoll itFlag ibarN maxIter =>
    simp only [wsStep] at h
    split at h
    · split at h
      · simp at h
      · dsimp only at h
        exact Or.inr (Or.inl (mem_innerBodyStep h))
    · dsimp only at h
      rcases List.mem_cons.mp h with h' | h'
      · exact Or.inr (Or.inr (Or.inl ⟨_, h'⟩))
      · exact Or.inl (mem_outerTailStep h')

theorem cancel_not_mem_wsStep {name n : String} {freq : Int} {mode : WSMode}
    {v : OuterVars} {s : StatusRecord} :
    Eff.cancelSetup n ∉ (wsStep name freq mode v s).1 := by
  intro h
  rcases mem_wsStep h with ⟨d, hd⟩ | ⟨d, hd, _⟩ | ⟨d, hd⟩ | hd <;> cases hd

theorem innerUpd_pos_of_mem_wsStep {name : String} {freq : Int} {mode : WSMode}
    {v : OuterVars} {s : StatusRecord} {d : Int}
    (h : Eff.innerUpd d ∈ (wsStep name freq mode v s).1) : 0 < d := by
  rcases mem_wsStep h with ⟨d', hd⟩ | ⟨d', hd, hp⟩ | ⟨d', hd⟩ | hd
  · cases hd
  · cases hd; exact hp
  · cases hd
  · cases hd

theorem wsStep_inr_ne_interrupted {name : String} {freq : Int} {mode : WSMode}
    {v : OuterVars} {s : StatusRecord} :
    (wsStep name freq mode v s).2 ≠ Sum.inr WaitResult.interrupted := by
  cases mode with
  | outerPoll =>
    simp only [wsStep]
    split
    · simp
    · split
      · simp
      · split
        · simp
        · split
          · simp
          · simp [outerTailStep]
  | innerPoll itFlag ibarN maxIter =>
    simp only [wsStep]
    split
    · split
      · simp
      · simp
    · simp [outerTailStep]

theorem wsRun_cancel (name : String) (freq : Int) :
    ∀ (polls : List PollEvent) (mode : WSMode) (v : OuterVars),
    ((wsRun name freq mode v polls).1 = WaitResult.interrupted →
      ∃ pre, (wsRun name freq mode v polls).2 = pre ++ [Eff.cancelSetup name] ∧
        countEff (Eff.cancelSetup name) pre = 0) ∧
    ((wsRun name freq mode v polls).1 ≠ WaitResult.interrupted →
      countEff (Eff.cancelSetup name) (wsRun name freq mode v polls).2 = 0)
  | [], mode, v => by
    constructor
    · intro h; simp [wsRun] at h
    · intro _; simp [wsRun]; rfl
  | PollEvent.interrupt :: rest, mode, v => by
    constructor
    · intro _; exact ⟨[], rfl, rfl⟩
    · intro h; simp [wsRun] at h
  | PollEvent.record s :: rest, mode, v => by
    rcases hstep : wsStep name freq mode v s with ⟨tr, out⟩
    cases out with
    | inr res =>
      have hres : res ≠ WaitResult.interrupted := by
        intro hc
        exact wsStep_inr_ne_interrupted (by rw [hstep, hc])
      have htr : countEff (Eff.cancelSetup name) tr = 0 :=
        countEff_eq_zero_of_not_mem (by
          intro hm
          exact cancel_not_mem_wsStep (by rw [hstep]; exact hm))
      constructor
      · intro h
        exact absurd (by simpa [wsRun, hstep] using h) hres
      · intro _
        simp [wsRun, hstep, htr]
    | inl mv =>
      rcases mv with ⟨mode', v'⟩
      have ih := wsRun_cancel name freq rest mode' v'
      have htr : countEff (Eff.cancelSetup name) tr = 0 :=
        countEff_eq_zero_of_not_mem (by
          intro hm
          exact cancel_not_mem_wsStep (by rw [hstep]; exact hm))
      constructor
      · intro h
        have h' : (wsRun name freq mode' v' rest).1 = WaitResult.interrupted := by
          simpa [wsRun, hstep] using h
        rcases ih.1 h' with ⟨pre, hpre, hcnt⟩
        refine ⟨tr ++ pre, ?_, ?_⟩
        · simp [wsRun, hstep, hpre]
        · rw [countEff_append, htr, hcnt]
      · intro h
        have h' : (wsRun name freq mode' v' rest).1 ≠ WaitResult.interrupted := by
          intro hc; exact h (by simpa [wsRun, hstep] using hc)
        have := ih.2 h'
        simp [wsRun, hstep, countEff_append, htr, this]

theorem wsRun_innerUpd_pos (name : String) (freq : Int) :
    ∀ (polls : List PollEvent) (mode : WSMode) (v : OuterVars) (d : Int),
    Eff.innerUpd d ∈ (wsRun name freq mode v polls).2 → 0 < d
  | [], mode, v, d => by
    intro h; simp [wsRun] at h
  | PollEvent.interrupt :: rest, mode, v, d => by
    intro h; simp [wsRun] at h
  | PollEvent.record s :: rest, mode, v, d => by
    intro h
    rcases hstep : wsStep name freq mode v s with ⟨tr, out⟩
    cases out with
    | inr res =>
      rw [wsRun, hstep] at h
      exact innerUpd_pos_of_mem_wsStep (by rw [hstep]; simp at h; exact h)
    | inl mv =>
      rcases mv with ⟨mode', v'⟩
      rw [wsRun, hstep] at h
      simp only [List.mem_append] at h
      rcases h with h | h
      · exact innerUpd_pos_of_mem_wsStep (by rw [hstep]; exact h)
      · exact wsRun_innerUpd_pos name freq rest mode' v' d h

theorem coreLoop_trace_fetch_only :
    ∀ (polls : List CorePoll) (s : StatusRecord) (e : Eff),
    e ∈ (coreLoop polls s).2 → e = Eff.fetchStatus
  | [], s, e => by
    intro h
    unfold coreLoop at h
    split at h <;> simp at h
  | none :: rest, s, e => by
    intro h
    unfold coreLoop at h
    split at h
    · simp at h
    · simp at h; exact h
  | some s' :: rest, s, e => by
    intro h
    unfold coreLoop at h
    split at h
    · simp at h
    · dsimp only at h
      rcases List.mem_cons.mp h with h | h
      · exact h
      · exact coreLoop_trace_fetch_only rest s' e h

theorem core_wait_setup_trace_fetch_only (polls : List CorePoll) (e : Eff)
    (h : e ∈ (core_wait_setup polls).2) : e = Eff.fetchStatus := by
  match polls with
  | [] => simp [core_wait_setup] at h
  | none :: rest => simpa [core_wait_setup] using h
  | some s :: rest =>
    rw [core_wait_setup] at h
    dsimp only at h
    rcases List.mem_cons.mp h with h | h
    · exact h
    · exact coreLoop_trace_fetch_only rest s e h

theorem wsStep_outer_failure (name : String) (freq : Int) (v : OuterVars)
    (s : StatusRecord) (h : s.status = error_message) :
    wsStep name freq WSMode.outerPoll v s
      = ([], Sum.inr (WaitResult.failed s.description)) := by
  have hne : s.status ≠ end_message := by rw [h]; decide
  simp [wsStep, hne, h]
  decide

theorem wsStep_outer_success (name : String) (freq : Int) (v : OuterVars)
    (s : StatusRecord) (h : s.status = end_message) :
    wsStep name freq WSMode.outerPoll v s
      = (finalFill v ++ [Eff.deleteStatus name], Sum.inr (WaitResult.finished s)) := by
  simp [wsStep, h]

theorem wait_setup_head_failure (name : String) (freq : Int) (s : StatusRecord)
    (rest : List PollEvent) (h : s.status = error_message) :
    wait_setup name freq (PollEvent.record s :: rest)
      = (WaitResult.failed s.description, []) := by
  simp only [wait_setup]
  rw [wsStep_outer_failure name freq _ s h]

theorem countCall_append (c : HttpCall) (l l' : List HttpCall) :
    countCall c (l ++ l') = countCall c l + countCall c l' := by
  induction l with
  | nil => simp [countCall]
  | cons d l ih => simp [countCall, ih]; ring

theorem countCall_eq_zero_of_not_mem {c : HttpCall} {l : List HttpCall} (h : c ∉ l) :
    countCall c l = 0 := by
  induction l with
  | nil => rfl
  | cons d l ih =>
    simp only [List.mem_cons, not_or] at h
    simp [countCall, Ne.symm h.1, ih h.2]

theorem mem_insert_data {name : String} {nRows batchSize : Nat} {c : HttpCall}
    (h : c ∈ insert_data name nRows batchSize) : ∃ st, c = HttpCall.postBatch name st := by
  unfold insert_data at h
  rcases List.mem_map.mp h with ⟨st, _, rfl⟩
  exact ⟨st, rfl⟩

theorem genLoop_some_spec (draws : Nat → String) (k : Nat) (pre suf : String)
    (names : List String) :
    ∀ (fuel i : Nat) (s : String), genLoop draws k pre suf names fuel i = some s →
      s ∉ names ∧ ∃ j, s = candName draws k pre suf j
  | 0, i, s => by
    intro h; simp [genLoop] at h
  | fuel + 1, i, s => by
    intro h
    simp only [genLoop] at h
    split at h
    · exact genLoop_some_spec draws k pre suf names fuel (i + 1) s h
    · cases h
      exact ⟨by assumption, i, rfl⟩

theorem genLoop_finds (draws : Nat → String) (k : Nat) (pre suf : String)
    (names : List String) :
    ∀ (fuel i : Nat), (∃ j, j < fuel ∧ candName draws k pre suf (i + j) ∉ names) →
      ∃ s, genLoop draws k pre suf names fuel i = some s
  | 0, i => by
    rintro ⟨j, hj, -⟩; omega
  | fuel + 1, i => by
    rintro ⟨j, hj, hfresh⟩
    simp only [genLoop]
    by_cases hmem : candName draws k pre suf i ∈ names
    · rw [if_pos hmem]
      apply genLoop_finds draws k pre suf names fuel (i + 1)
      have hj0 : j ≠ 0 := by
        rintro rfl
        exact hfresh (by simpa using hmem)
      refine ⟨j - 1, by omega, ?_⟩
      have harith : i + 1 + (j - 1) = i + j := by omega
      rw [harith]; exact hfresh
    · exact ⟨_, by rw [if_neg hmem]⟩

theorem strAppend_data (s t : String) : (s ++ t).data = s.data ++ t.data := by
  cases s; cases t; rfl

theorem strLength_append (s t : String) : (s ++ t).length = s.length + t.length := by
  show (s ++ t).data.length = s.data.length + t.data.length
  rw [strAppend_data, List.length_append]

theorem strTake_length (s : String) (k : Nat) : (strTake s k).length = min k s.length := by
  show (s.data.take k).length = min k s.data.length
  exact List.length_take k s.data

theorem strLower_length (s : String) : (strLower s).length = s.length := by
  show (s.data.map Char.toLower).length = s.data.length
  exact List.length_map s.data Char.toLower

theorem candName_length (draws : Nat → String) (k : Nat) (pre suf : String)
    (i : Nat) (h : k ≤ (draws i).length) :
    (candName draws k pre suf i).length = pre.length + k + suf.length := by
  unfold candName
  rw [strLength_append, strLength_append, strLower_length, strTake_length,
    Nat.min_eq_left h]

theorem wait_setup_record_eq_wsRun (name : String) (freq : Int) (s0 : StatusRecord)
    (rest : List PollEvent) :
    wait_setup name freq (PollEvent.record s0 :: rest)
      = wsRun name freq WSMode.outerPoll
          { current := s0.currentStep, maxSteps := s0.totalSteps,
            step := s0.currentStep, isInit := true, sleepTime := freq }
          (PollEvent.record s0 :: rest) := rfl

/-! Claim theorems. -/

/-- Claim C1, counterexample.  The claim says `wait_setup` raises for EVERY
poll sequence in which some fetched record carries the failure sentinel.  In
this concrete run the second fetched record is the failure sentinel, but it is
consumed by the inner iteration loop (which only re-parses `Description`), the
trailing `status = self.status()` of the outer body then replaces it, and the
call returns the later success record normally — no exception is raised. -/
theorem c1_counterexample :
    PollEvent.record ⟨"Something went wrong.", "boom", 0, 2⟩
      ∈ [PollEvent.record ⟨"Running", "Iteration: 1 / 10", 0, 2⟩,
         PollEvent.record ⟨"Something went wrong.", "boom", 0, 2⟩,
         PollEvent.record ⟨"Running", "x", 1, 2⟩,
         PollEvent.record ⟨"Task ended successfully.", "done", 2, 2⟩] ∧
    wait_setup "db" 1
      [PollEvent.record ⟨"Running", "Iteration: 1 / 10", 0, 2⟩,
       PollEvent.record ⟨"Something went wrong.", "boom", 0, 2⟩,
       PollEvent.record ⟨"Running", "x", 1, 2⟩,
       PollEvent.record ⟨"Task ended successfully.", "done", 2, 2⟩]
      = (WaitResult.finished ⟨"Task ended successfully.", "done", 2, 2⟩,
         [Eff.innerUpd 1, Eff.innerFill 9, Eff.outerUpd 0, Eff.outerUpd 2,
          Eff.deleteStatus "db"]) := by
  decide

/-- Claim C1, amended: whenever the record examined by the OUTER `while`
condition of `Trainer.wait_setup` has `Status` exactly `"Something went
wrong."`, the call raises `BaseException` carrying that record's
`Description`, for every value of `frequency_seconds` and every loop state; in
particular this holds when the failure record is the first one fetched.
(A failure record fetched while the inner iteration loop is active can be
skipped without raising, see the counterexample.) -/
theorem c1_amended :
    (∀ (name : String) (freq : Int) (v : OuterVars) (s : StatusRecord),
      s.status = "Something went wrong." →
      wsStep name freq WSMode.outerPoll v s
        = ([], Sum.inr (WaitResult.failed s.description))) ∧
    (∀ (name : String) (freq : Int) (s : StatusRecord) (rest : List PollEvent),
      s.status = "Something went wrong." →
      wait_setup name freq (PollEvent.record s :: rest)
        = (WaitResult.failed s.description, [])) :=
  ⟨fun name freq v s h => wsStep_outer_failure name freq v s h,
   fun name freq s rest h => wait_setup_head_failure name freq s rest h⟩

/-- Claim C1, witness for the amended theorem at a concrete failure record. -/
theorem c1_amended_witness :
    wait_setup "db" 5 [PollEvent.record ⟨"Something went wrong.", "exploded", 3, 9⟩]
      = (WaitResult.failed "exploded", []) :=
  c1_amended.2 "db" 5 ⟨"Something went wrong.", "exploded", 3, 9⟩ [] rfl

/-- Claim C2, counterexample.  The claim covers `jAI.wait_setup` of
`src/src/mycelia_core.py` as well, but that function observes the success
record, returns `None` (not the record) and issues no deletion: its whole
trace is the status fetch. -/
theorem c2_counterexample :
    core_wait_setup [some ⟨"Task ended successfully.", "done", 2, 2⟩]
      = (CoreResult.returnedNone, [Eff.fetchStatus]) := by
  decide

/-- Claim C2, amended: in the `Trainer.wait_setup` of
`src/jai/task/trainer.py`, whenever the outer `while` condition observes a
record with `Status` exactly `"Task ended successfully."`, the call issues
`_delete_status` for the session's name and returns that record; the core
client's `jAI.wait_setup` never issues any deletion (its trace holds status
fetches only) and returns `None`. -/
theorem c2_amended :
    (∀ (name : String) (freq : Int) (v : OuterVars) (s : StatusRecord),
      s.status = "Task ended successfully." →
      wsStep name freq WSMode.outerPoll v s
        = (finalFill v ++ [Eff.deleteStatus name], Sum.inr (WaitResult.finished s)) ∧
      Eff.deleteStatus name ∈ (wsStep name freq WSMode.outerPoll v s).1) ∧
    (∀ (polls : List CorePoll) (n : String),
      Eff.deleteStatus n ∉ (core_wait_setup polls).2) := by
  constructor
  · intro name freq v s h
    refine ⟨wsStep_outer_success name freq v s h, ?_⟩
    rw [wsStep_outer_success name freq v s h]
    simp
  · intro polls n hmem
    have := core_wait_setup_trace_fetch_only polls _ hmem
    simp at this

/-- Claim C2, witness for the amended theorem at a concrete success record. -/
theorem c2_amended_witness :
    wsStep "db" 1 WSMode.outerPoll ⟨2, 2, 2, false, 1⟩
        ⟨"Task ended successfully.", "done", 2, 2⟩
      = (finalFill ⟨2, 2, 2, false, 1⟩ ++ [Eff.deleteStatus "db"],
         Sum.inr (WaitResult.finished ⟨"Task ended successfully.", "done", 2, 2⟩)) :=
  (c2_amended.1 "db" 1 ⟨2, 2, 2, false, 1⟩
    ⟨"Task ended successfully.", "done", 2, 2⟩ rfl).1

/-- Claim C7: during the polling loop of `Trainer.wait_setup`, the
`KeyboardInterrupt` handler issues exactly one `_cancel_setup(name)` call — it
is the final effect before `KeyboardInterrupt(response)` is re-raised
(`WaitResult.interrupted`) — and no run that does not end in the handler
issues any cancel call. -/
theorem c7_cancel_exactly_on_interrupt :
    ∀ (name : String) (freq : Int) (polls : List PollEvent),
    ((wait_setup name freq polls).1 = WaitResult.interrupted →
      ∃ pre, (wait_setup name freq polls).2 = pre ++ [Eff.cancelSetup name] ∧
        countEff (Eff.cancelSetup name) pre = 0) ∧
    ((wait_setup name freq polls).1 ≠ WaitResult.interrupted →
      countEff (Eff.cancelSetup name) (wait_setup name freq polls).2 = 0) := by
  intro name freq polls
  match polls with
  | [] =>
    constructor
    · intro h; simp [wait_setup] at h
    · intro _; rfl
  | PollEvent.interrupt :: rest =>
    constructor
    · intro h; simp [wait_setup] at h
    · intro _; rfl
  | PollEvent.record s0 :: rest =>
    rw [wait_setup_record_eq_wsRun]
    exact wsRun_cancel name freq (PollEvent.record s0 :: rest) WSMode.outerPoll _

/-- Claim C7, witness: a concrete interrupted run, whose trace is the pending
progress update followed by exactly the one cancel call. -/
theorem c7_witness :
    ∃ pre,
      (wait_setup "db" 1 [PollEvent.record ⟨"Running", "w", 5, 10⟩,
        PollEvent.interrupt]).2 = pre ++ [Eff.cancelSetup "db"] ∧
      countEff (Eff.cancelSetup "db") pre = 0 :=
  (c7_cancel_exactly_on_interrupt "db" 1
    [PollEvent.record ⟨"Running", "w", 5, 10⟩, PollEvent.interrupt]).1 (by decide)

/-- Claim C8, counterexample.  The outer progress bar update
`pbar.update(step - current)` is not guarded: when the server reports a
`CurrentStep` smaller than a previously reported one (5 then 2 here), the
displayed current-step value receives the negative update `-3` and regresses. -/
theorem c8_counterexample :
    Eff.outerUpd (-3)
      ∈ (wait_setup "db" 1
          [PollEvent.record ⟨"Running", "w", 5, 10⟩,
           PollEvent.record ⟨"Running", "w", 2, 10⟩,
           PollEvent.record ⟨"Running", "w", 2, 10⟩]).2 := by
  decide

/-- Claim C8, amended: the guarded update of the INNER iteration bar is never
negative — `step_update = curr_step - iteration_bar.n` is applied only when
positive, so a reported `Iteration` value smaller than an earlier one is
skipped.  (The outer step bar has no such guard, see the counterexample, and
the closing fill `iteration_bar.update(max_iterations - iteration_bar.n)` is
likewise unguarded.) -/
theorem c8_amended :
    ∀ (name : String) (freq : Int) (polls : List PollEvent) (d : Int),
      Eff.innerUpd d ∈ (wait_setup name freq polls).2 → 0 < d := by
  intro name freq polls d h
  match polls with
  | [] => simp [wait_setup] at h
  | PollEvent.interrupt :: rest => simp [wait_setup] at h
  | PollEvent.record s0 :: rest =>
    rw [wait_setup_record_eq_wsRun] at h
    exact wsRun_innerUpd_pos name freq (PollEvent.record s0 :: rest)
      WSMode.outerPoll _ d h

/-- Claim C8, witness for the amended theorem: the inner-bar update emitted in
a concrete run is positive. -/
theorem c8_amended_witness :
    Eff.innerUpd 1
      ∈ (wait_setup "db" 1
          [PollEvent.record ⟨"Running", "Iteration: 1 / 10", 0, 2⟩,
           PollEvent.record ⟨"Task ended successfully.", "done", 2, 2⟩]).2 ∧
    (0 : Int) < 1 :=
  ⟨by decide,
   c8_amended "db" 1
     [PollEvent.record ⟨"Running", "Iteration: 1 / 10", 0, 2⟩,
      PollEvent.record ⟨"Task ended successfully.", "done", 2, 2⟩] 1 (by decide)⟩

/-- Claim C3: `Trainer.fit` of `src/jai/task/trainer.py` implements the
claimed guard, but `Trainer.setup` of `src/jai/setup/trainer.py` has it
inverted, because `exists()` returns `db_type is None`, which is true exactly
when the name is NOT in the remote info listing.  Concretely: with the name
present in the remote environment and `overwrite=False`, `setup` proceeds
without raising or deleting; with the name absent it raises the `KeyError`
whose message claims the database already exists.  `fit` raises on an
existing name with `overwrite=False`, deletes first with `overwrite=True`,
and proceeds silently when the name is absent. -/
theorem c3_exists_guard_inverted :
    setup_exists [("db", "Text")] "db" none = false ∧
    setup_exists [] "db" none = true ∧
    setup_guard [("db", "Text")] "db" none false = Except.ok [] ∧
    setup_guard [] "db" none false
      = Except.error (PyExn.keyError
          "Database db already exists in your environment. Set overwrite=True to overwrite it.") ∧
    fit_guard true "db" false
      = Except.error (PyExn.keyError
          "Database db already exists in your environment. Set overwrite=True to overwrite it.") ∧
    fit_guard true "db" true = Except.ok [HttpCall.deleteDb "db"] ∧
    fit_guard false "db" false = Except.ok [] := by
  decide

/-- Claim C4: `Trainer.append` raises `KeyError` when the bound name is not
valid in the remote environment; otherwise its remote calls are the two raw
data deletions, then the batch uploads (each a POST of `/data/{name}`), then
exactly one PATCH of `/data/{name}` as the final call. -/
theorem c4_append_pipeline :
    ∀ (isValid : Bool) (name : String) (nRows batchSize : Nat),
    (isValid = false →
      ∃ m, append_calls isValid name nRows batchSize = Except.error (PyExn.keyError m)) ∧
    (isValid = true →
      append_calls isValid name nRows batchSize
        = Except.ok (HttpCall.deleteData name :: HttpCall.deleteData name ::
            (insert_data name nRows batchSize ++ [HttpCall.patchData name])) ∧
      (∀ c ∈ insert_data name nRows batchSize, ∃ st, c = HttpCall.postBatch name st) ∧
      countCall (HttpCall.patchData name)
        (HttpCall.deleteData name :: HttpCall.deleteData name ::
          (insert_data name nRows batchSize ++ [HttpCall.patchData name])) = 1 ∧
      callRoute (HttpCall.patchData name) = ("PATCH", "/data/" ++ name)) := by
  intro isValid name nRows batchSize
  constructor
  · rintro rfl
    exact ⟨_, rfl⟩
  · rintro rfl
    refine ⟨by simp [append_calls], fun c hc => mem_insert_data hc, ?_, rfl⟩
    have hpost : countCall (HttpCall.patchData name) (insert_data name nRows batchSize) = 0 :=
      countCall_eq_zero_of_not_mem (by
        intro hm
        rcases mem_insert_data hm with ⟨st, hst⟩
        cases hst)
    simp [countCall, countCall_append, hpost]

/-- Claim C4, witness: the pipeline at a concrete valid session with 3 rows
and batch size 2 (two batch uploads), plus the invalid-session `KeyError`. -/
theorem c4_witness :
    append_calls true "db" 3 2
      = Except.ok (HttpCall.deleteData "db" :: HttpCall.deleteData "db" ::
          (insert_data "db" 3 2 ++ [HttpCall.patchData "db"])) ∧
    countCall (HttpCall.patchData "db")
      (HttpCall.deleteData "db" :: HttpCall.deleteData "db" ::
        (insert_data "db" 3 2 ++ [HttpCall.patchData "db"])) = 1 ∧
    ∃ m, append_calls false "db" 3 2 = Except.error (PyExn.keyError m) :=
  ⟨((c4_append_pipeline true "db" 3 2).2 rfl).1,
   ((c4_append_pipeline true "db" 3 2).2 rfl).2.2.1,
   (c4_append_pipeline false "db" 3 2).1 rfl⟩

/-- Claim C5: every core-client operation, on any response whose status code
is not the endpoint's success code, prints the response body and returns the
raw response object — uniformly, with no exception raised (the result type of
the model has no exception outcome, mirroring the commented-out
`raise ValueError` in `assert_status_code`) and no retry (each operation
consumes exactly one response). -/
theorem c5_error_path :
    ∀ r : HttpResponse,
    (r.statusCode ≠ 200 →
      insert_json r = ([r.body], CoreReturn.raw r) ∧
      delete_raw_data r = ([r.body], CoreReturn.raw r) ∧
      delete_database r = ([r.body], CoreReturn.raw r) ∧
      names_get r = ([r.body], CoreReturn.raw r) ∧
      status_get r = ([r.body], CoreReturn.raw r) ∧
      similar_json r = ([r.body], CoreReturn.raw r) ∧
      ids_get r = ([r.body], CoreReturn.raw r) ∧
      is_valid_get r = ([r.body], CoreReturn.raw r)) ∧
    (r.statusCode ≠ 201 → setup_database r = ([r.body], CoreReturn.raw r)) ∧
    (r.statusCode ≠ 202 → append_patch r = ([r.body], CoreReturn.raw r)) := by
  intro r
  refine ⟨fun h => ?_, fun h => ?_, fun h => ?_⟩ <;>
    simp [insert_json, delete_raw_data, delete_database, names_get, status_get,
      similar_json, ids_get, is_valid_get, setup_database, append_patch,
      assert_status_code, h]

/-- Claim C5, witness: a concrete 404 response takes the print-and-return-raw
path on all three endpoint families. -/
theorem c5_witness :
    insert_json ⟨404, "oops"⟩ = (["oops"], CoreReturn.raw ⟨404, "oops"⟩) ∧
    setup_database ⟨404, "oops"⟩ = (["oops"], CoreReturn.raw ⟨404, "oops"⟩) ∧
    append_patch ⟨404, "oops"⟩ = (["oops"], CoreReturn.raw ⟨404, "oops"⟩) :=
  ⟨(c5_error_path ⟨404, "oops"⟩).1 (by decide) |>.1,
   (c5_error_path ⟨404, "oops"⟩).2.1 (by decide),
   (c5_error_path ⟨404, "oops"⟩).2.2 (by decide)⟩

/-- Claim C6: the parsed JSON body is returned exactly on status code 200 for
the insert-batch POST, exactly on 201 for the start-training POST, and
exactly on 202 for the append PATCH; every other code takes the uniform raw
error path. -/
theorem c6_success_codes :
    ∀ r : HttpResponse,
    ((insert_json r).2 = CoreReturn.parsed r.body ↔ r.statusCode = 200) ∧
    ((insert_json r).2 = CoreReturn.raw r ↔ r.statusCode ≠ 200) ∧
    ((setup_database r).2 = CoreReturn.parsed r.body ↔ r.statusCode = 201) ∧
    ((setup_database r).2 = CoreReturn.raw r ↔ r.statusCode ≠ 201) ∧
    ((append_patch r).2 = CoreReturn.parsed r.body ↔ r.statusCode = 202) ∧
    ((append_patch r).2 = CoreReturn.raw r ↔ r.statusCode ≠ 202) := by
  intro r
  refine ⟨?_, ?_, ?_, ?_, ?_, ?_⟩
  · by_cases h : r.statusCode = 200 <;> simp [insert_json, assert_status_code, h]
  · by_cases h : r.statusCode = 200 <;> simp [insert_json, assert_status_code, h]
  · by_cases h : r.statusCode = 201 <;> simp [setup_database, assert_status_code, h]
  · by_cases h : r.statusCode = 201 <;> simp [setup_database, assert_status_code, h]
  · by_cases h : r.statusCode = 202 <;> simp [append_patch, assert_status_code, h]
  · by_cases h : r.statusCode = 202 <;> simp [append_patch, assert_status_code, h]

/-- Claim C6, witness at concrete responses, via the characterisation. -/
theorem c6_witness :
    (insert_json ⟨200, "b"⟩).2 = CoreReturn.parsed "b" ∧
    (setup_database ⟨201, "b"⟩).2 = CoreReturn.parsed "b" ∧
    (append_patch ⟨202, "b"⟩).2 = CoreReturn.parsed "b" ∧
    (setup_database ⟨200, "b"⟩).2 = CoreReturn.raw ⟨200, "b"⟩ :=
  ⟨(c6_success_codes ⟨200, "b"⟩).1.mpr rfl,
   (c6_success_codes ⟨201, "b"⟩).2.2.1.mpr rfl,
   (c6_success_codes ⟨202, "b"⟩).2.2.2.2.1.mpr rfl,
   (c6_success_codes ⟨200, "b"⟩).2.2.2.1.mpr (by decide)⟩

/-- Claim C9: the module-level `get_numbers` of `src/jai/task/trainer.py`
returns the triple `(True, i, n)` on a `Description` embedding
`Iteration: i / n` and `(False, 0, 0)` otherwise, but the nested
`get_numbers` of `src/jai/setup/trainer.py` returns the PAIR
`(int(curr_step), int(max_iterations))` on the match branch — two components,
so its caller's three-way unpacking
`iteration, _, max_iterations = get_numbers(status)` fails with a
`ValueError` on exactly the descriptions the parser is meant to handle. -/
theorem c9_setup_parser_returns_pair :
    get_numbers "Training. Iteration: 3 / 10" = Except.ok (true, 3, 10) ∧
    get_numbers "status check" = Except.ok (false, 0, 0) ∧
    setup_get_numbers "Training. Iteration: 3 / 10"
      = Except.ok [PyVal.int 3, PyVal.int 10] ∧
    setup_get_numbers "status check"
      = Except.ok [PyVal.bool false, PyVal.int 0, PyVal.int 0] ∧
    [PyVal.int 3, PyVal.int 10].length ≠ 3 := by
  decide

/-- Claim C10, counterexample.  The claim asserts `generate_name` RETURNS a
fresh name for every set of existing collection names.  When the existing
names cover every candidate — here `length=1` with empty prefix/suffix, all
sixteen single lowercase hex digits taken, and a `token_hex` stream drawing
the zero byte — the `while name in names` loop never exits: no number of loop
iterations produces a name. -/
theorem c10_counterexample : generateNameNeverReturns zeroDraws 1 "" "" hexDigits := by
  have hloop : ∀ (fuel i : Nat),
      genLoop zeroDraws 1 "" "" hexDigits fuel i = none := by
    intro fuel
    induction fuel with
    | zero => intro i; rfl
    | succ fuel ih =>
      intro i
      have hc : candName zeroDraws 1 "" "" i = "0" := rfl
      simp only [genLoop, hc]
      rw [if_pos (by decide)]
      exact ih (i + 1)
  intro fuel
  unfold generate_name
  rw [if_neg (by decide)]
  have hk : ((1 : Int) - ("".length : Int) - ("".length : Int)).toNat = 1 := by decide
  rw [hk, hloop fuel 0]

/-- Claim C10, amended: `generate_name` raises `ValueError` exactly when
`length <= len(prefix) + len(suffix)`; any name it returns is
`prefix + code + suffix` for some generated code and is not among the
existing names; its length is exactly `length` (given that `token_hex`
outputs are long enough, as `secrets.token_hex(k)` always is); and the loop
does return once some generated candidate falls outside the existing names —
which is not guaranteed when those names cover all candidates. -/
theorem c10_amended :
    ∀ (fuel : Nat) (draws : Nat → String) (length : Int) (pre suf : String)
      (names : List String),
    (length ≤ (pre.length : Int) + (suf.length : Int) →
      generate_name fuel draws length pre suf names = Except.error PyExn.valueError) ∧
    (∀ s, generate_name fuel draws length pre suf names = Except.ok (some s) →
      s ∉ names ∧
      ∃ i, s = pre ++ strLower (strTake (draws i)
        (length - pre.length - suf.length).toNat) ++ suf) ∧
    ((∀ i, (length - pre.length - suf.length).toNat ≤ (draws i).length) →
      ∀ s, generate_name fuel draws length pre suf names = Except.ok (some s) →
        (s.length : Int) = length) ∧
    ((pre.length : Int) + (suf.length : Int) < length →
      (∃ j, j < fuel ∧
        pre ++ strLower (strTake (draws j)
          (length - pre.length - suf.length).toNat) ++ suf ∉ names) →
      ∃ s, generate_name fuel draws length pre suf names = Except.ok (some s)) := by
  intro fuel draws length pre suf names
  have hextract : ∀ s, generate_name fuel draws length pre suf names = Except.ok (some s) →
      ¬(length ≤ (pre.length : Int) + (suf.length : Int)) ∧
      genLoop draws (length - pre.length - suf.length).toNat pre suf names fuel 0 = some s := by
    intro s hs
    by_cases hg : length ≤ (pre.length : Int) + (suf.length : Int)
    · rw [generate_name, if_pos hg] at hs
      cases hs
    · rw [generate_name, if_neg hg] at hs
      exact ⟨hg, by injection hs⟩
  refine ⟨?_, ?_, ?_, ?_⟩
  · intro h
    rw [generate_name, if_pos h]
  · intro s hs
    rcases hextract s hs with ⟨-, hloop⟩
    rcases genLoop_some_spec draws _ pre suf names fuel 0 s hloop with ⟨hfresh, j, hj⟩
    exact ⟨hfresh, j, hj⟩
  · intro hlen s hs
    rcases hextract s hs with ⟨hg, hloop⟩
    rcases genLoop_some_spec draws _ pre suf names fuel 0 s hloop with ⟨-, j, hj⟩
    have hcast : ((length - (pre.length : Int) - (suf.length : Int)).toNat : Int)
        = length - pre.length - suf.length := Int.toNat_of_nonneg (by omega)
    have := candName_length draws (length - pre.length - suf.length).toNat pre suf j (hlen j)
    rw [hj, this]
    push_cast
    omega
  · intro hg ⟨j, hj, hfresh⟩
    have hfind := genLoop_finds draws (length - pre.length - suf.length).toNat pre suf
      names fuel 0 ⟨j, hj, by simpa [candName] using hfresh⟩
    rcases hfind with ⟨s, hsome⟩
    refine ⟨s, ?_⟩
    rw [generate_name, if_neg (by omega), hsome]

/-- Claim C10, witness for the amended theorem: the `ValueError` guard at
`length = 0` with a 4-character prefix-suffix budget, and a concrete run that
skips one taken name and returns a fresh one. -/
theorem c10_amended_witness :
    generate_name 0 (fun _ => "00") 0 "ab" "cd" [] = Except.error PyExn.valueError ∧
    (∃ s, generate_name 3 (fun n => if n = 0 then "00" else "ab") 2 "x" "" ["x0"]
      = Except.ok (some s)) :=
  ⟨(c10_amended 0 (fun _ => "00") 0 "ab" "cd" []).1 (by decide),
   (c10_amended 3 (fun n => if n = 0 then "00" else "ab") 2 "x" "" ["x0"]).2.2.2
     (by decide) ⟨1, by decide, by decide⟩⟩

end Mycelia
